import Mathlib

/-!
Verification of the penumbra MediaTek flashing tool: a shallow embedding of
its DA-container parser, SecCfg codec, XFlash flash I/O parameter blocks and
checksums, BROM handshake loops, preloader queries and XML command layer,
with theorems settling the specification claims about them.

Byte sequences are modelled as `List Nat` with each element a byte value;
fixed-width machine integers are `Nat` with explicit `% 2^w` where the Rust
code can overflow.
-/

set_option maxRecDepth 16000
set_option maxHeartbeats 2000000

namespace Penumbra

/-- Little-endian byte decoding: `leNat [b0, b1, ...] = b0 + 256*b1 + ...`,
the meaning of Rust `uN::from_le_bytes` for byte lists of width N/8. -/
def leNat : List Nat → Nat
  | [] => 0
  | b :: rest => b + 256 * leNat rest

/-- Big-endian byte decoding, the meaning of Rust `uN::from_be_bytes`. -/
def beNat (bs : List Nat) : Nat := leNat bs.reverse

/-- Rust `u16::to_le_bytes` of a value already reduced below 2^16. -/
def u16le (n : Nat) : List Nat := [n % 256, n / 256 % 256]

/-- Rust `u32::to_le_bytes`: four little-endian bytes. -/
def u32le (n : Nat) : List Nat :=
  [n % 256, n / 2 ^ 8 % 256, n / 2 ^ 16 % 256, n / 2 ^ 24 % 256]

/-- Rust `u64::to_le_bytes`: eight little-endian bytes. -/
def u64le (n : Nat) : List Nat := u32le (n % 2 ^ 32) ++ u32le (n / 2 ^ 32)

/-- Rust `data.windows(pat.len()).any(|w| w == pat)`: does `pat` occur as a
contiguous run inside `data`? -/
def containsSub (data pat : List Nat) : Bool :=
  (List.range (data.length + 1)).any fun i => pat.isPrefixOf (data.drop i)

theorem u32le_length (n : Nat) : (u32le n).length = 4 := rfl

theorem u64le_length (n : Nat) : (u64le n).length = 8 := rfl

theorem leNat_u32le (n : Nat) (h : n < 2 ^ 32) : leNat (u32le n) = n := by
  simp only [u32le, leNat]
  omega

theorem isPrefixOf_length_le (pat bs : List Nat) (h : pat.isPrefixOf bs = true) :
    pat.length ≤ bs.length := by
  induction pat generalizing bs with
  | nil => simp
  | cons p ps ih =>
    cases bs with
    | nil => simp [List.isPrefixOf] at h
    | cons b bs2 =>
      simp only [List.isPrefixOf, Bool.and_eq_true] at h
      have := ih bs2 h.2
      simp only [List.length_cons]
      omega

/-- If `pat` occurs inside `data` then `data` is at least as long as `pat`. -/
theorem length_le_of_containsSub (data pat : List Nat)
    (h : containsSub data pat = true) : pat.length ≤ data.length := by
  simp only [containsSub, List.any_eq_true, List.mem_range] at h
  obtain ⟨i, _, hpre⟩ := h
  have hlen := isPrefixOf_length_le pat _ hpre
  have := List.length_drop i data
  omega

/-! ## XFlash flash-I/O parameter blocks (src/core/src/da/xflash/flash.rs)

`read_flash` builds its parameter block from the detected storage type
(`xflash.get_storage_type().await as u32`), the partition kind
(`section.as_u32()`), the address and the size; `write_flash` builds its own
block with the storage type hardcoded to `1u32` (with a TODO noting missing
support for other storage types).  Both functions are embedded here as the
parameter blocks they construct, as functions of the `u32` values involved
(`StorageType` and `PartitionKind` live in `core/storage.rs`, whose numeric
casts only enter these definitions through the `storage_type` and
`partition_type` arguments). -/

/-- The `nand_ext` suffix `[0u32; 8]` flattened to little-endian bytes. -/
def nand_ext_bytes : List Nat := (List.replicate 8 0).map u32le |>.flatten

/-- The parameter block built by `read_flash` (flash.rs lines 40-49):
storage type, partition type, address (u64), size (u64), NAND extension. -/
def read_flash_param (storage_type partition_type addr size : Nat) : List Nat :=
  u32le storage_type ++ u32le partition_type ++ u64le addr ++ u64le size ++ nand_ext_bytes

/-- The parameter block built by `write_flash` (flash.rs lines 147-155); the
storage type is the literal `1u32`. -/
def write_flash_param (partition_type addr size : Nat) : List Nat :=
  u32le 1 ++ u32le partition_type ++ u64le addr ++ u64le size ++ nand_ext_bytes

/-- C3 counterexample: at the concrete write of `0x44` bytes at address 0 of
a user partition (`partition_type = 8`), the parameter block is not 44 bytes
long, and it differs from the read prologue of a device whose detected
storage-type value is 2 rather than 1. -/
theorem write_flash_param_ne_read_prologue :
    (write_flash_param 8 0 0x44).length ≠ 44 ∧
      write_flash_param 8 0 0x44 ≠ read_flash_param 2 8 0 0x44 := by
  constructor
  · decide
  · decide

/-- C3 amended: the write-path parameter block is 56 bytes, has the same
layout as the read prologue, and agrees with it on every field except the
storage type, which is hardcoded to 1 instead of the detected value. -/
theorem write_flash_param_layout (storage_type partition_type addr size : Nat) :
    (write_flash_param partition_type addr size).length = 56 ∧
      write_flash_param partition_type addr size =
        read_flash_param 1 partition_type addr size ∧
      (write_flash_param partition_type addr size).drop 4 =
        (read_flash_param storage_type partition_type addr size).drop 4 := by
  refine ⟨?_, rfl, ?_⟩
  · simp [write_flash_param, u32le, u64le, nand_ext_bytes]
  · simp only [write_flash_param, read_flash_param]
    rw [List.append_assoc, List.append_assoc, List.append_assoc,
      List.append_assoc, List.append_assoc,
      List.drop_append_of_le_length (by simp [u32le]),
      List.drop_append_of_le_length (by simp [u32le])]
    simp [u32le]

/-! ## XFlash write-path chunking and checksum (flash.rs lines 176-208)

`write_flash` walks `actual_data` in chunks of the negotiated write-packet
size and, for each chunk, computes
`chunk.iter().fold(0u32, |total, &byte| total + byte as u32) & 0xFFFF`
and transmits it ahead of the chunk bytes.  `u32` addition wraps modulo
2^32 in release builds, so the fold is embedded with an explicit reduction. -/

/-- The chunks `&actual_data[pos..packet_end]` visited by the write loop, in
order.  Defined for a positive chunk size; the Rust loop does not advance
when the negotiated packet size is zero. -/
def chunksOfFuel : Nat → Nat → List Nat → List (List Nat)
  | _, _, [] => []
  | 0, _, _ => []
  | fuel + 1, n, l => l.take n :: chunksOfFuel fuel n (l.drop n)

/-- The chunk list, with enough fuel to cover the whole input. -/
def chunksOf (n : Nat) (l : List Nat) : List (List Nat) :=
  chunksOfFuel l.length n l

/-- The additive 16-bit checksum computed for one chunk: a wrapping `u32`
fold of the byte values, masked with `0xFFFF`. -/
def chunk_checksum (c : List Nat) : Nat :=
  (c.foldl (fun total byte => (total + byte) % 2 ^ 32) 0) &&& 0xFFFF

theorem foldl_add_mod (l : List Nat) (a : Nat) (ha : a < 2 ^ 32) :
    l.foldl (fun total byte => (total + byte) % 2 ^ 32) a = (a + l.sum) % 2 ^ 32 := by
  induction l generalizing a with
  | nil => simp only [List.foldl_nil, List.sum_nil, Nat.add_zero]; omega
  | cons b l ih =>
      have hlt : (a + b) % 2 ^ 32 < 2 ^ 32 := Nat.mod_lt _ (by omega)
      simp only [List.foldl_cons, List.sum_cons, ih _ hlt]
      omega

/-- C5: for every chunk transmitted by the XFlash flash-write path, the
16-bit additive checksum sent ahead of the chunk equals the sum of the
bytes of the chunk modulo 0x10000. -/
theorem chunk_checksum_eq_sum_mod (data : List Nat) (chunkSize : Nat)
    (_hpos : 0 < chunkSize) (c : List Nat) (_hc : c ∈ chunksOf chunkSize data) :
    chunk_checksum c = c.sum % 0x10000 := by
  have hmask : ∀ n : Nat, n &&& 0xFFFF = n % 2 ^ 16 := by
    intro n
    have := Nat.and_pow_two_sub_one_eq_mod n 16
    simpa using this
  simp only [chunk_checksum, foldl_add_mod c 0 (by omega), Nat.zero_add, hmask]
  have : (2 : Nat) ^ 16 ∣ 2 ^ 32 := pow_dvd_pow 2 (by omega)
  rw [Nat.mod_mod_of_dvd _ this]
  rfl

/-- C5 witness: the first chunk of writing `[1, 2, 3]` with a negotiated
packet size of 2 has checksum `3 % 0x10000`. -/
theorem chunk_checksum_eq_sum_mod_witness :
    chunk_checksum [1, 2] = [1, 2].sum % 0x10000 :=
  chunk_checksum_eq_sum_mod [1, 2, 3] 2 (by decide) [1, 2] (by decide)

/-! ## DA container parser (src/core/src/da/dafile.rs)

`DAFile::parse_da` classifies the container, checks the
`MTK_DOWNLOAD_AGENT` tag, and walks the per-SoC entry table; Rust slice
expressions such as `&raw_data[start..end]` panic when out of range, so the
embedding returns a three-valued result.  The `le_u16!`/`le_u32!` macros
(little-endian reads at an offset) are embedded as `take`/`drop` plus
`leNat`. -/

inductive PRes (α : Type) where
  | ok (a : α)
  | err
  | panic
deriving DecidableEq

def PRes.bind {α β : Type} : PRes α → (α → PRes β) → PRes β
  | .ok a, f => f a
  | .err, _ => .err
  | .panic, _ => .panic

instance : Monad PRes where
  pure := PRes.ok
  bind := PRes.bind

/-- Rust slice `&l[a..b]`: panics unless `a ≤ b ≤ l.len()`. -/
def sliceP (l : List Nat) (a b : Nat) : PRes (List Nat) :=
  if a ≤ b ∧ b ≤ l.length then .ok ((l.drop a).take (b - a)) else .panic

/-- The macro `le_u16!(l, off)`. -/
def leU16At (l : List Nat) (off : Nat) : Nat := leNat ((l.drop off).take 2)

/-- The macro `le_u32!(l, off)`. -/
def leU32At (l : List Nat) (off : Nat) : Nat := leNat ((l.drop off).take 4)

inductive DAType where
  | Legacy
  | V5
  | V6
deriving DecidableEq

structure DAEntryRegion where
  data : List Nat
  offset : Nat
  length : Nat
  addr : Nat
  region_length : Nat
  sig_len : Nat
deriving DecidableEq

structure DA where
  da_type : DAType
  regions : List DAEntryRegion
  magic : Nat
  hw_code : Nat
  hw_sub_code : Nat
deriving DecidableEq

structure DAFile where
  da_raw_data : List Nat
  da_type : DAType
  das : List DA
deriving DecidableEq

/-- ASCII bytes of `"MTK_DA_v6"`. -/
def mtkDaV6 : List Nat := [0x4D, 0x54, 0x4B, 0x5F, 0x44, 0x41, 0x5F, 0x76, 0x36]

/-- ASCII bytes of `"MTK_DOWNLOAD_AGENT"`. -/
def mtkDownloadAgent : List Nat :=
  [0x4D, 0x54, 0x4B, 0x5F, 0x44, 0x4F, 0x57, 0x4E, 0x4C, 0x4F, 0x41, 0x44,
   0x5F, 0x41, 0x47, 0x45, 0x4E, 0x54]

/-- ASCII bytes of `"AND_SECRO_v"`. -/
def andSecroV : List Nat :=
  [0x41, 0x4E, 0x44, 0x5F, 0x53, 0x45, 0x43, 0x52, 0x4F, 0x5F, 0x76]

def legacyTestPos : Nat := 0x6C + 0xD8

/-- The dialect classification at the top of `parse_da` (dafile.rs lines
76-85): the legacy-magic test at `0x6C + 0xD8` runs first, then the
`MTK_DA_v6` search over the 0x6C-byte header, then the V5 default. -/
def classifyDa (raw : List Nat) : DAType :=
  if legacyTestPos + 2 ≤ raw.length ∧ (raw.drop legacyTestPos).take 2 = [0xDA, 0xDA] then
    .Legacy
  else if containsSub (raw.take 0x6C) mtkDaV6 then .V6
  else .V5

/-- One 20-byte region record plus its data slice (dafile.rs lines 129-164),
threading the `inner_da_type` downgrade on finding `AND_SECRO_v`. -/
def parseRegions (raw da_entry : List Nat) :
    DAType → Nat → Nat → PRes (DAType × List DAEntryRegion)
  | inner, _, 0 => .ok (inner, [])
  | inner, off, count + 1 =>
    PRes.bind (sliceP da_entry off (off + 20)) fun rh =>
    let offset := leU32At rh 0x00
    let length := leU32At rh 0x04
    let addr := leU32At rh 0x08
    let sig_len := leU32At rh 0x10
    PRes.bind (sliceP raw offset (offset + length)) fun region_data =>
    let inner2 := if inner ≠ .Legacy ∧ containsSub region_data andSecroV then .Legacy else inner
    PRes.bind (parseRegions raw da_entry inner2 (off + 20) count) fun res =>
    .ok (res.1, ⟨region_data, offset, length, addr, length - sig_len, sig_len⟩ :: res.2)

/-- One DA entry of the header table (dafile.rs lines 102-171). -/
def parseEntry (raw : List Nat) (da_type : DAType) (da_entry_size i : Nat) : PRes DA :=
  let start := 0x6C + i * da_entry_size
  PRes.bind (sliceP raw start (start + da_entry_size)) fun da_entry =>
  let magic := leU16At da_entry 0x00
  let hw_code := leU16At da_entry 0x02
  let hw_sub_code := leU16At da_entry 0x04
  let region_count := leU16At da_entry 0x12
  PRes.bind (parseRegions raw da_entry da_type 0x14 region_count) fun res =>
  .ok ⟨res.1, res.2, magic, hw_code, hw_sub_code⟩

def parseEntries (raw : List Nat) (da_type : DAType) (da_entry_size : Nat) :
    List Nat → PRes (List DA)
  | [] => .ok []
  | i :: rest =>
    PRes.bind (parseEntry raw da_type da_entry_size i) fun e =>
    PRes.bind (parseEntries raw da_type da_entry_size rest) fun es =>
    .ok (e :: es)

/-- Rust `DAFile::parse_da` (dafile.rs lines 69-174). -/
def parse_da (raw : List Nat) : PRes DAFile :=
  if raw.length < 0x6C + 0xDC then .err
  else
    let hdr := raw.take 0x6C
    let da_type := classifyDa raw
    if da_type ≠ .Legacy ∧ ¬ containsSub hdr mtkDownloadAgent then .err
    else
      let num_socs := leU32At hdr 0x68
      let da_entry_size := if da_type = .Legacy then 0xD8 else 0xDC
      PRes.bind (parseEntries raw da_type da_entry_size (List.range num_socs)) fun das =>
      .ok ⟨raw, da_type, das⟩

/-- Projection used to state classification results of a parse. -/
def PRes.daTypeOf : PRes DAFile → Option DAType
  | .ok f => some f.da_type
  | _ => none

/-- A concrete container carrying both markers: `MTK_DA_v6` in its header
and the `0xDADA` legacy magic at offset `0x6C + 0xD8`. -/
def c2raw : List Nat := mtkDaV6 ++ List.replicate 315 0 ++ [0xDA, 0xDA, 0, 0]

/-- C2 counterexample: `c2raw` has `MTK_DA_v6` inside its 0x6C-byte header
and the legacy magic at the legacy offset, yet `parse_da` classifies it as
Legacy, not V6 — the legacy-magic check takes precedence. -/
theorem parse_da_v6_marker_not_precedent :
    containsSub (c2raw.take 0x6C) mtkDaV6 = true ∧
      (c2raw.drop legacyTestPos).take 2 = [0xDA, 0xDA] ∧
      (parse_da c2raw).daTypeOf = some DAType.Legacy := by
  refine ⟨by decide, by decide, by decide⟩

/-- C2 amended: the legacy-magic check takes precedence — any container with
`0xDADA` at the legacy offset is classified Legacy even when `MTK_DA_v6` is
present; the `MTK_DA_v6` marker yields V6 only when the legacy magic test
fails; and a successful `parse_da` records exactly this classification. -/
theorem classifyDa_precedence (raw : List Nat) :
    ((raw.drop legacyTestPos).take 2 = [0xDA, 0xDA] → legacyTestPos + 2 ≤ raw.length →
        classifyDa raw = DAType.Legacy) ∧
      ((legacyTestPos + 2 ≤ raw.length ∧ (raw.drop legacyTestPos).take 2 = [0xDA, 0xDA] →
            False) →
          containsSub (raw.take 0x6C) mtkDaV6 = true → classifyDa raw = DAType.V6) ∧
      (∀ f, parse_da raw = PRes.ok f → f.da_type = classifyDa raw) := by
  refine ⟨?_, ?_, ?_⟩
  · intro hmagic hlen
    simp [classifyDa, hmagic, hlen]
  · intro hno hv6
    rw [classifyDa, if_neg hno, if_pos hv6]
  · intro f hf
    rw [parse_da] at hf
    by_cases hlen : raw.length < 0x6C + 0xDC
    · simp [hlen] at hf
    · simp only [if_neg hlen] at hf
      by_cases hsig : classifyDa raw ≠ DAType.Legacy ∧
          ¬ containsSub (raw.take 0x6C) mtkDownloadAgent
      · simp [hsig] at hf
      · simp only [if_neg hsig] at hf
        cases hdas : parseEntries raw (classifyDa raw)
            (if classifyDa raw = DAType.Legacy then 0xD8 else 0xDC)
            (List.range (leU32At (raw.take 0x6C) 0x68)) with
        | ok das => rw [hdas] at hf; cases hf; rfl
        | err => rw [hdas] at hf; cases hf
        | panic => rw [hdas] at hf; cases hf

/-- C2 amended-claim witness at the concrete container `c2raw`. -/
theorem classifyDa_precedence_witness : classifyDa c2raw = DAType.Legacy :=
  (classifyDa_precedence c2raw).1 (by decide) (by decide)

/-! ## DA entry selector (dafile.rs lines 177-215) -/

/-- The fixed hw-code → DA-code lookup table inside
`DAFile::get_da_from_hw_code`; unlisted codes map to themselves. -/
def mapDaCode (hw_code : Nat) : Nat :=
  if hw_code = 0x279 then 0x6797
  else if hw_code = 0x321 then 0x6735
  else if hw_code = 0x326 then 0x6755
  else if hw_code = 0x335 then 0x6735
  else if hw_code = 0x337 then 0x6735
  else if hw_code = 0x507 then 0x6758
  else if hw_code = 0x551 then 0x6757
  else if hw_code = 0x562 then 0x6799
  else if hw_code = 0x601 then 0x6755
  else if hw_code = 0x633 then 0x6570
  else if hw_code = 0x688 then 0x6758
  else if hw_code = 0x690 then 0x6763
  else if hw_code = 0x699 then 0x6739
  else if hw_code = 0x707 then 0x6768
  else if hw_code = 0x717 then 0x6761
  else if hw_code = 0x725 then 0x6779
  else if hw_code = 0x766 then 0x6765
  else if hw_code = 0x788 then 0x6771
  else if hw_code = 0x813 then 0x6785
  else if hw_code = 0x816 then 0x6885
  else if hw_code = 0x886 then 0x6873
  else if hw_code = 0x908 then 0x8696
  else if hw_code = 0x930 then 0x8195
  else if hw_code = 0x950 then 0x6893
  else if hw_code = 0x959 then 0x6877
  else if hw_code = 0x989 then 0x6833
  else if hw_code = 0x996 then 0x6853
  else if hw_code = 0x1066 then 0x6781
  else if hw_code = 0x6583 then 0x6589
  else if hw_code = 0x8172 then 0x8173
  else if hw_code = 0x8176 then 0x8173
  else hw_code

/-- The hw codes listed in the lookup table. -/
def listedHwCodes : List Nat :=
  [0x279, 0x321, 0x326, 0x335, 0x337, 0x507, 0x551, 0x562, 0x601, 0x633,
   0x688, 0x690, 0x699, 0x707, 0x717, 0x725, 0x766, 0x788, 0x813, 0x816,
   0x886, 0x908, 0x930, 0x950, 0x959, 0x989, 0x996, 0x1066, 0x6583, 0x8172,
   0x8176]

/-- Rust `DAFile::get_da_from_hw_code`: map the code through the table, then take
the first entry whose `hw_code` matches. -/
def DAFile.get_da_from_hw_code (f : DAFile) (hw_code : Nat) : Option DA :=
  f.das.find? fun da => da.hw_code == mapDaCode hw_code

/-- C6: the selector maps the code through the fixed table (0x707 → 0x6768;
unlisted codes map to themselves), any returned entry is the first whose
`hw_code` equals the mapped code, and failure means no entry matches. -/
theorem get_da_from_hw_code_spec (f : DAFile) (hw_code : Nat) :
    mapDaCode 0x707 = 0x6768 ∧
      (hw_code ∉ listedHwCodes → mapDaCode hw_code = hw_code) ∧
      (∀ da, f.get_da_from_hw_code hw_code = some da →
        da.hw_code = mapDaCode hw_code ∧
          ∃ i : Nat, f.das.get? i = some da ∧
            ∀ j, j < i → ∀ prev, f.das.get? j = some prev →
              prev.hw_code ≠ mapDaCode hw_code) ∧
      (f.get_da_from_hw_code hw_code = none ↔
        ∀ da ∈ f.das, da.hw_code ≠ mapDaCode hw_code) := by
  refine ⟨rfl, ?_, ?_, ?_⟩
  · intro hnot
    simp only [listedHwCodes, List.mem_cons, List.not_mem_nil, or_false, not_or] at hnot
    obtain ⟨h1, h2, h3, h4, h5, h6, h7, h8, h9, h10, h11, h12, h13, h14, h15, h16,
      h17, h18, h19, h20, h21, h22, h23, h24, h25, h26, h27, h28, h29, h30, h31⟩ := hnot
    rw [mapDaCode]
    simp only [h1, h2, h3, h4, h5, h6, h7, h8, h9, h10, h11, h12, h13, h14, h15, h16,
      h17, h18, h19, h20, h21, h22, h23, h24, h25, h26, h27, h28, h29, h30, h31, if_false]
  · intro da hda
    rw [DAFile.get_da_from_hw_code] at hda
    refine ⟨by simpa using List.find?_some hda, ?_⟩
    obtain ⟨hpb, i, hilen, hgeti, hprev⟩ := List.find?_eq_some_iff_getElem.mp hda
    refine ⟨i, by simp [List.get?_eq_getElem?, List.getElem?_eq_getElem hilen, hgeti], ?_⟩
    intro j hj prev hprev2
    have hj2 : j < f.das.length := lt_trans hj hilen
    have hnp := hprev j hj
    rw [List.get?_eq_getElem?, List.getElem?_eq_getElem hj2] at hprev2
    cases hprev2
    simpa using hnp
  · rw [DAFile.get_da_from_hw_code, List.find?_eq_none]
    constructor
    · intro h da hmem
      simpa using h da hmem
    · intro h da hmem
      simpa using h da hmem

/-- C6 witness: a two-entry container; code 0x707 maps to 0x6768 and selects
the second entry, the first entry not matching. -/
theorem get_da_from_hw_code_spec_witness :
    (DAFile.mk [] DAType.V5
        [⟨DAType.V5, [], 0xDADA, 0x6765, 0xCA00⟩,
         ⟨DAType.V5, [], 0xDADA, 0x6768, 0xCA00⟩]).get_da_from_hw_code 0x707 =
      some ⟨DAType.V5, [], 0xDADA, 0x6768, 0xCA00⟩ ∧
      mapDaCode 0x2025 = 0x2025 := by
  have h := get_da_from_hw_code_spec
    (DAFile.mk [] DAType.V5
      [⟨DAType.V5, [], 0xDADA, 0x6765, 0xCA00⟩,
       ⟨DAType.V5, [], 0xDADA, 0x6768, 0xCA00⟩]) 0x2025
  exact ⟨by decide, h.2.1 (by decide)⟩

/-! ## SHA-256

`SecCfgV4::get_hash` calls `Sha256::digest` from the external `sha2` crate;
the function is embedded here as the standard FIPS 180-4 algorithm over byte
lists, with the round constants derived from the fractional parts of the
cube roots (resp. square roots) of the first 64 (resp. 8) primes, which is
their definition. -/

/-- Binary-search step for the integer cube root. -/
def icbrtAux (n : Nat) : Nat → Nat → Nat → Nat
  | 0, lo, _ => lo
  | fuel + 1, lo, hi =>
    if hi ≤ lo + 1 then lo
    else
      let mid := (lo + hi) / 2
      if mid ^ 3 ≤ n then icbrtAux n fuel mid hi else icbrtAux n fuel lo mid

/-- Integer cube root: the largest `c` with `c ^ 3 ≤ n` (for `n < 2 ^ 126`). -/
def icbrt (n : Nat) : Nat := icbrtAux n 128 0 (2 ^ 42)

/-- The first 64 primes. -/
def sha256Primes : List Nat :=
  [2, 3, 5, 7, 11, 13, 17, 19, 23, 29, 31, 37, 41, 43, 47, 53, 59, 61, 67,
   71, 73, 79, 83, 89, 97, 101, 103, 107, 109, 113, 127, 131, 137, 139, 149,
   151, 157, 163, 167, 173, 179, 181, 191, 193, 197, 199, 211, 223, 227,
   229, 233, 239, 241, 251, 257, 263, 269, 271, 277, 281, 283, 293, 307, 311]

/-- Round constants: fractional cube roots of the first 64 primes. -/
def sha256K : List Nat := sha256Primes.map fun p => icbrt (p * 2 ^ 96) % 2 ^ 32

/-- Initial state: fractional square roots of the first 8 primes. -/
def sha256H : List Nat := (sha256Primes.take 8).map fun p => Nat.sqrt (p * 2 ^ 64) % 2 ^ 32

def rotr32 (n w : Nat) : Nat := ((w >>> n) ||| (w <<< (32 - n))) % 2 ^ 32

def smallSigma0 (x : Nat) : Nat := rotr32 7 x ^^^ rotr32 18 x ^^^ (x >>> 3)

def smallSigma1 (x : Nat) : Nat := rotr32 17 x ^^^ rotr32 19 x ^^^ (x >>> 10)

def bigSigma0 (x : Nat) : Nat := rotr32 2 x ^^^ rotr32 13 x ^^^ rotr32 22 x

def bigSigma1 (x : Nat) : Nat := rotr32 6 x ^^^ rotr32 11 x ^^^ rotr32 25 x

def chFn (x y z : Nat) : Nat := (x &&& y) ^^^ ((x ^^^ 0xFFFFFFFF) &&& z)

def majFn (x y z : Nat) : Nat := (x &&& y) ^^^ (x &&& z) ^^^ (y &&& z)

/-- FIPS 180-4 padding: `0x80`, zeros, then the bit length as 8 big-endian
bytes, reaching a multiple of 64 bytes. -/
def sha256pad (msg : List Nat) : List Nat :=
  msg ++ [0x80] ++ List.replicate ((119 - msg.length % 64) % 64) 0 ++
    (u64le (msg.length * 8)).reverse

/-- Group bytes into big-endian 32-bit words. -/
def bytesToWordsBE : List Nat → List Nat
  | b0 :: b1 :: b2 :: b3 :: rest =>
    (((b0 * 256 + b1) * 256 + b2) * 256 + b3) :: bytesToWordsBE rest
  | _ => []

/-- Extend 16 words to the 64-word message schedule. -/
def sha256schedule (ws : List Nat) : List Nat :=
  (List.range 48).foldl
    (fun acc _ =>
      let n := acc.length
      acc ++ [(smallSigma1 (acc.getD (n - 2) 0) + acc.getD (n - 7) 0 +
        smallSigma0 (acc.getD (n - 15) 0) + acc.getD (n - 16) 0) % 2 ^ 32])
    ws

/-- One compression round; the state is the 8-word vector `[a..h]`. -/
def sha256round (st : List Nat) (wk : Nat × Nat) : List Nat :=
  match st with
  | [a, b, c, d, e, f, g, h] =>
    let t1 := (h + bigSigma1 e + chFn e f g + wk.2 + wk.1) % 2 ^ 32
    let t2 := (bigSigma0 a + majFn a b c) % 2 ^ 32
    [(t1 + t2) % 2 ^ 32, a, b, c, (d + t1) % 2 ^ 32, e, f, g]
  | st => st

/-- Compress one 64-word schedule into the running state. -/
def sha256compress (h w : List Nat) : List Nat :=
  ((w.zip sha256K).foldl sha256round h).zip h |>.map fun p => (p.1 + p.2) % 2 ^ 32

/-- SHA-256 of a byte list, as 32 bytes. -/
def sha256 (msg : List Nat) : List Nat :=
  let padded := sha256pad msg
  let blocks := chunksOfFuel padded.length 64 padded
  let hfin := blocks.foldl (fun h blk => sha256compress h (sha256schedule (bytesToWordsBE blk))) sha256H
  (hfin.map fun w => (u32le w).reverse).flatten

/-! ## SecCfg v4 (src/core/src/core/seccfg.rs)

`SecCfgV4::create` serializes the seven little-endian header words, appends
the stored encrypted hash (or the SHA-256 of the header when none is
stored), and zero-pads to a 0x200 boundary; `SecCfgV4::parse_header` guards
only `data.len() < 0x20` and then reads fixed offsets up to byte 60, so the
`data[28..60]` read can go out of bounds — Rust slice panics are modelled by
`PRes.panic` through `sliceP`. -/

def V4_MAGIC_BEGIN : Nat := 0x4D4D4D4D

def V4_MAGIC_END : Nat := 0x45454545

inductive SecCfgV4Algo where
  | SW
  | HW
  | HWv3
  | HWv4
deriving DecidableEq

structure SecCfgV4 where
  seccfg_ver : Nat
  seccfg_size : Nat
  lock_state : Nat
  critical_lock_state : Nat
  sboot_runtime : Nat
  algo : Option SecCfgV4Algo
  enc_hash : Option (List Nat)
deriving DecidableEq

/-- The `header_data` concatenation built inside `SecCfgV4::get_hash`. -/
def SecCfgV4.header_data (s : SecCfgV4) : List Nat :=
  u32le V4_MAGIC_BEGIN ++ u32le s.seccfg_ver ++ u32le s.seccfg_size ++
    u32le s.lock_state ++ u32le s.critical_lock_state ++ u32le s.sboot_runtime ++
    u32le V4_MAGIC_END

def SecCfgV4.get_hash (s : SecCfgV4) : List Nat := sha256 s.header_data

/-- The `while !len.is_multiple_of(0x200) push(0)` padding loop. -/
def padTo0x200 (l : List Nat) : List Nat :=
  l ++ List.replicate ((0x200 - l.length % 0x200) % 0x200) 0

/-- Rust `SecCfgV4::create` (seccfg.rs lines 133-155). -/
def SecCfgV4.create (s : SecCfgV4) : List Nat :=
  padTo0x200 (s.header_data ++
    match s.enc_hash with
    | some h => h
    | none => s.get_hash)

/-- Rust `SecCfgV4::parse_header` (seccfg.rs lines 59-86).  The reads happen in
source order: the `enc_hash` slice `data[28..60]` is taken before the magic
values are checked. -/
def SecCfgV4.parse_header (data : List Nat) : PRes SecCfgV4 :=
  if data.length < 0x20 then .err
  else
    PRes.bind (sliceP data 0 4) fun m =>
    PRes.bind (sliceP data 4 8) fun v =>
    PRes.bind (sliceP data 8 12) fun sz =>
    PRes.bind (sliceP data 12 16) fun lk =>
    PRes.bind (sliceP data 16 20) fun cl =>
    PRes.bind (sliceP data 20 24) fun sb =>
    PRes.bind (sliceP data 24 28) fun ef =>
    PRes.bind (sliceP data 28 60) fun hsh =>
    if leNat m ≠ V4_MAGIC_BEGIN ∨ leNat ef ≠ V4_MAGIC_END then .err
    else .ok ⟨leNat v, leNat sz, leNat lk, leNat cl, leNat sb, none, some hsh⟩

/-- C10: the length guard admits 32-byte inputs, but the `data[28..60]`
read requires 60 bytes, so a 32-byte input passes the guard and panics. -/
theorem parse_header_panics_on_guarded_input :
    ¬ (List.replicate 0x20 0).length < 0x20 ∧
      SecCfgV4.parse_header (List.replicate 0x20 0) = PRes.panic := by
  constructor
  · decide
  · decide

theorem PRes.bind_ok {α β : Type} (a : α) (f : α → PRes β) :
    PRes.bind (.ok a) f = f a := rfl

/-- Lemma: `sliceP` on an exact concatenation split. -/
theorem sliceP_at (l pre mid rest : List Nat) (a b : Nat)
    (hl : l = pre ++ (mid ++ rest)) (ha : pre.length = a) (hb : a + mid.length = b) :
    sliceP l a b = PRes.ok mid := by
  subst hl
  subst ha
  subst hb
  unfold sliceP
  rw [if_pos]
  · rw [List.drop_left, Nat.add_sub_cancel_left, List.take_left]
  · constructor
    · omega
    · simp only [List.length_append]
      omega

/-- A well-formed SecCfgV4: `u32` fields and a stored 32-byte hash. -/
def SecCfgV4.wf (s : SecCfgV4) : Prop :=
  s.seccfg_ver < 2 ^ 32 ∧ s.seccfg_size < 2 ^ 32 ∧ s.lock_state < 2 ^ 32 ∧
    s.critical_lock_state < 2 ^ 32 ∧ s.sboot_runtime < 2 ^ 32 ∧
    ∃ h, s.enc_hash = some h ∧ h.length = 32

theorem padTo0x200_length (l : List Nat) : (padTo0x200 l).length % 0x200 = 0 := by
  simp only [padTo0x200, List.length_append, List.length_replicate]
  omega

/-- C4: parsing the serialized block of a well-formed SecCfgV4 recovers the
version, size, lock states, sboot runtime and the 32-byte encrypted hash,
and the serialized block length is a multiple of 0x200. -/
theorem seccfg_roundtrip (s : SecCfgV4) (hwf : s.wf) :
    (∃ s2, SecCfgV4.parse_header (s.create) = PRes.ok s2 ∧
      s2.seccfg_ver = s.seccfg_ver ∧ s2.seccfg_size = s.seccfg_size ∧
      s2.lock_state = s.lock_state ∧ s2.critical_lock_state = s.critical_lock_state ∧
      s2.sboot_runtime = s.sboot_runtime ∧ s2.enc_hash = s.enc_hash) ∧
      (s.create).length % 0x200 = 0 := by
  obtain ⟨hver, hsize, hlock, hcrit, hsboot, hsh, hhash, hlen32⟩ := hwf
  refine ⟨?_, padTo0x200_length _⟩
  have hpadlen : ((s.header_data ++ hsh).length % 0x200) = 60 := by
    simp only [SecCfgV4.header_data, List.length_append, u32le_length, hlen32]
  have hcreate : s.create =
      u32le V4_MAGIC_BEGIN ++ (u32le s.seccfg_ver ++ (u32le s.seccfg_size ++
        (u32le s.lock_state ++ (u32le s.critical_lock_state ++
        (u32le s.sboot_runtime ++ (u32le V4_MAGIC_END ++
        (hsh ++ List.replicate 452 0))))))) := by
    rw [SecCfgV4.create, hhash, padTo0x200, hpadlen]
    simp only [SecCfgV4.header_data, List.append_assoc]
  have hclen : (s.create).length = 512 := by
    rw [hcreate]
    simp only [List.length_append, u32le_length, hlen32, List.length_replicate]
  rw [SecCfgV4.parse_header, if_neg (by omega)]
  rw [sliceP_at _ [] (u32le V4_MAGIC_BEGIN)
    (u32le s.seccfg_ver ++ (u32le s.seccfg_size ++ (u32le s.lock_state ++
      (u32le s.critical_lock_state ++ (u32le s.sboot_runtime ++ (u32le V4_MAGIC_END ++
      (hsh ++ List.replicate 452 0))))))) 0 4
    (by rw [hcreate]; exact (List.nil_append _).symm) rfl rfl, PRes.bind_ok]
  rw [sliceP_at _ (u32le V4_MAGIC_BEGIN) (u32le s.seccfg_ver)
    (u32le s.seccfg_size ++ (u32le s.lock_state ++ (u32le s.critical_lock_state ++
      (u32le s.sboot_runtime ++ (u32le V4_MAGIC_END ++ (hsh ++ List.replicate 452 0)))))) 4 8
    (by rw [hcreate]) rfl rfl, PRes.bind_ok]
  rw [sliceP_at _ (u32le V4_MAGIC_BEGIN ++ u32le s.seccfg_ver) (u32le s.seccfg_size)
    (u32le s.lock_state ++ (u32le s.critical_lock_state ++ (u32le s.sboot_runtime ++
      (u32le V4_MAGIC_END ++ (hsh ++ List.replicate 452 0))))) 8 12
    (by rw [hcreate]; simp only [List.append_assoc])
    (by simp only [List.length_append, u32le_length]) rfl, PRes.bind_ok]
  rw [sliceP_at _ (u32le V4_MAGIC_BEGIN ++ u32le s.seccfg_ver ++ u32le s.seccfg_size)
    (u32le s.lock_state)
    (u32le s.critical_lock_state ++ (u32le s.sboot_runtime ++ (u32le V4_MAGIC_END ++
      (hsh ++ List.replicate 452 0)))) 12 16
    (by rw [hcreate]; simp only [List.append_assoc])
    (by simp only [List.length_append, u32le_length]) rfl, PRes.bind_ok]
  rw [sliceP_at _ (u32le V4_MAGIC_BEGIN ++ u32le s.seccfg_ver ++ u32le s.seccfg_size ++
      u32le s.lock_state) (u32le s.critical_lock_state)
    (u32le s.sboot_runtime ++ (u32le V4_MAGIC_END ++ (hsh ++ List.replicate 452 0))) 16 20
    (by rw [hcreate]; simp only [List.append_assoc])
    (by simp only [List.length_append, u32le_length]) rfl, PRes.bind_ok]
  rw [sliceP_at _ (u32le V4_MAGIC_BEGIN ++ u32le s.seccfg_ver ++ u32le s.seccfg_size ++
      u32le s.lock_state ++ u32le s.critical_lock_state) (u32le s.sboot_runtime)
    (u32le V4_MAGIC_END ++ (hsh ++ List.replicate 452 0)) 20 24
    (by rw [hcreate]; simp only [List.append_assoc])
    (by simp only [List.length_append, u32le_length]) rfl, PRes.bind_ok]
  rw [sliceP_at _ (u32le V4_MAGIC_BEGIN ++ u32le s.seccfg_ver ++ u32le s.seccfg_size ++
      u32le s.lock_state ++ u32le s.critical_lock_state ++ u32le s.sboot_runtime)
    (u32le V4_MAGIC_END) (hsh ++ List.replicate 452 0) 24 28
    (by rw [hcreate]; simp only [List.append_assoc])
    (by simp only [List.length_append, u32le_length]) rfl, PRes.bind_ok]
  rw [sliceP_at _ (u32le V4_MAGIC_BEGIN ++ u32le s.seccfg_ver ++ u32le s.seccfg_size ++
      u32le s.lock_state ++ u32le s.critical_lock_state ++ u32le s.sboot_runtime ++
      u32le V4_MAGIC_END) hsh (List.replicate 452 0) 28 60
    (by rw [hcreate]; simp only [List.append_assoc])
    (by simp only [List.length_append, u32le_length])
    (by simp only [hlen32]), PRes.bind_ok]
  rw [if_neg]
  · refine ⟨_, rfl, ?_, ?_, ?_, ?_, ?_, ?_⟩
    · exact leNat_u32le _ hver
    · exact leNat_u32le _ hsize
    · exact leNat_u32le _ hlock
    · exact leNat_u32le _ hcrit
    · exact leNat_u32le _ hsboot
    · rw [hhash]
  · rw [leNat_u32le _ (by decide), leNat_u32le _ (by decide)]
    simp [V4_MAGIC_BEGIN, V4_MAGIC_END]

/-- C4 witness: a concrete unlocked SecCfgV4 with a stored 32-byte hash
round-trips, and its serialized block length is a multiple of 0x200. -/
theorem seccfg_roundtrip_witness :
    (∃ s2, SecCfgV4.parse_header
        ((SecCfgV4.mk 4 20 3 0 0 none (some (List.replicate 32 0xAB))).create) = PRes.ok s2 ∧
      s2.seccfg_ver = 4 ∧ s2.seccfg_size = 20 ∧ s2.lock_state = 3 ∧
      s2.critical_lock_state = 0 ∧ s2.sboot_runtime = 0 ∧
      s2.enc_hash = some (List.replicate 32 0xAB)) ∧
      ((SecCfgV4.mk 4 20 3 0 0 none (some (List.replicate 32 0xAB))).create).length % 0x200 = 0 :=
  seccfg_roundtrip (SecCfgV4.mk 4 20 3 0 0 none (some (List.replicate 32 0xAB)))
    ⟨by decide, by decide, by decide, by decide, by decide,
      List.replicate 32 0xAB, rfl, by decide⟩

/-! ## BROM handshake (src/core/src/connection/backend)

Two backends implement `MTKPort::handshake` for the builds whose features
select them.  `libusb_backend.rs` (lines 280-322) walks the four-byte
sequence with a step counter: a reply equal to `startcmd[0]` (0xA0) means
already handshaken, the ones-complement of the current byte advances, and
anything else resets the step to 0 after a 5 ms sleep — with no retry bound.
`usb_backend.rs` (lines 219-254) loops on the first byte until `0x5F` (or
returns on `0xA0`), then sends the remaining three bytes and fails with a
connection error on the first mismatch.  Both are embedded over the stream
of reply bytes the device produces (one byte per loop iteration; the libusb
read takes the last byte of each bulk read). -/

def startcmd : List Nat := [0xA0, 0x0A, 0x50, 0x05]

/-- Rust `!startcmd[i]`: the expected ones-complement reply at step `i`. -/
def lbExpected (i : Nat) : Nat := 0xFF - startcmd.getD i 0

inductive HsOutcome where
  | ok
  | outOfReplies
deriving DecidableEq

structure HsRun where
  outcome : HsOutcome
  pauses : Nat
deriving DecidableEq

/-- The libusb handshake loop: arguments are the reply stream, the step
counter `i`, and the number of 5 ms pauses taken so far.  `outOfReplies`
means the loop is still running when the supplied replies run out. -/
def lbHandshake : List Nat → Nat → Nat → HsRun
  | [], i, pauses => if 4 ≤ i then ⟨.ok, pauses⟩ else ⟨.outOfReplies, pauses⟩
  | b :: rest, i, pauses =>
    if 4 ≤ i then ⟨.ok, pauses⟩
    else if b = startcmd.getD 0 0 then ⟨.ok, pauses⟩
    else if b = lbExpected i then lbHandshake rest (i + 1) pauses
    else lbHandshake rest 0 (pauses + 1)

inductive NusbHs where
  | ok
  | failed
  | outOfReplies
deriving DecidableEq

/-- The second phase of the nusb handshake: the bytes `[0x0A, 0x50, 0x05]`,
each requiring the complement `byte ^ 0xFF`; a mismatch is an immediate
`Handshake failed` connection error. -/
def nusbSeq : List Nat → List Nat → NusbHs
  | [], _ => .ok
  | _ :: _, [] => .outOfReplies
  | b :: seqRest, r :: replies =>
    if r = b ^^^ 0xFF then nusbSeq seqRest replies else .failed

/-- The nusb handshake: send 0xA0 until the reply is 0x5F (proceed) or 0xA0
(already handshaken), then run the remaining three steps. -/
def nusbHandshake : List Nat → NusbHs
  | [] => .outOfReplies
  | r :: replies =>
    if r = 0x5F then nusbSeq [0x0A, 0x50, 0x05] replies
    else if r = 0xA0 then .ok
    else nusbHandshake replies

/-- C1 counterexample: the nusb handshake gives up with a handshake-failure
error after a single mismatched reply in step 2 (no reset, no ~100 retries),
while the libusb handshake is still retrying — with 256 resets and pauses
behind it — after 256 consecutive mismatched replies, instead of having
given up with `HandshakeFailed` after about 100. -/
theorem handshake_retry_cap_counterexample :
    nusbHandshake [0x5F, 0x00] = NusbHs.failed ∧
      lbHandshake (List.replicate 256 0x00) 0 0 = ⟨HsOutcome.outOfReplies, 256⟩ := by
  constructor
  · decide
  · decide

theorem lb_all_mismatch (n p : Nat) :
    lbHandshake (List.replicate n 0x00) 0 p = ⟨HsOutcome.outOfReplies, p + n⟩ := by
  induction n generalizing p with
  | zero => simp [List.replicate, lbHandshake]
  | succ n ih =>
    rw [List.replicate_succ, lbHandshake]
    simp only [startcmd, lbExpected, List.getD]
    norm_num
    rw [ih]
    exact congrArg _ (by omega)

/-- C1 amended: in the libusb backend a reply byte differing from both the
expected ones-complement byte and 0xA0 resets the step counter to 0, adds a
~5 ms pause, and there is no retry cap — after any number `n` of consecutive
mismatches the handshake is still retrying (with `n` pauses) and never
returns a `HandshakeFailed` error; in the nusb backend a mismatch after the
first step aborts at once with a handshake-failure error instead of
restarting. -/
theorem handshake_retry_behaviour :
    (∀ i pauses b rest, i < 4 → b ≠ 0xA0 → b ≠ lbExpected i →
        lbHandshake (b :: rest) i pauses = lbHandshake rest 0 (pauses + 1)) ∧
      (∀ n, lbHandshake (List.replicate n 0x00) 0 0 = ⟨HsOutcome.outOfReplies, n⟩) ∧
      (∀ b rest, b ≠ 0x0A ^^^ 0xFF → nusbHandshake (0x5F :: b :: rest) = NusbHs.failed) := by
  refine ⟨?_, ?_, ?_⟩
  · intro i pauses b rest hi hb hbe
    rw [lbHandshake, if_neg (by omega), if_neg (by simpa [startcmd] using hb), if_neg hbe]
  · intro n
    simpa using lb_all_mismatch n 0
  · intro b rest hb
    rw [nusbHandshake]
    norm_num [nusbSeq, hb]

/-- C1 amended-claim witness at concrete replies. -/
theorem handshake_retry_behaviour_witness :
    lbHandshake [0x01] 0 0 = lbHandshake [] 0 1 ∧
      lbHandshake (List.replicate 3 0x00) 0 0 = ⟨HsOutcome.outOfReplies, 3⟩ ∧
      nusbHandshake [0x5F, 0x00] = NusbHs.failed :=
  ⟨handshake_retry_behaviour.1 0 0 0x01 [] (by decide) (by decide) (by decide),
   handshake_retry_behaviour.2.1 3,
   handshake_retry_behaviour.2.2 0x00 [] (by decide)⟩

/-! ## Preloader byte-blob queries (src/core/src/connection/mod.rs)

`get_soc_id` (lines 168-197) and `get_meid` (lines 199-228) echo their
opcode byte, then read a u32 big-endian length under a 500 ms timeout: a
timeout is downgraded to `Ok(vec![])`, an I/O error propagates, and after
the payload a little-endian u16 status is read, any non-zero value being a
connection error.  The port is modelled as a script of read results — one
event per `read_exact` call — where `tmo` is the expiry of the 500 ms
timeout; the opcode values live in `connection/command.rs` (not under src/)
and are passed in as `cmd`. -/

inductive PortEvt where
  | chunk (bs : List Nat)
  | tmo
  | ioErr
deriving DecidableEq

inductive CRes where
  | ok (bs : List Nat)
  | errConn
  | errIo
deriving DecidableEq

/-- Rust `Connection::get_soc_id`. -/
def get_soc_id (cmd : Nat) : List PortEvt → CRes
  | .chunk [e] :: s1 =>
    if e ≠ cmd then CRes.errConn
    else
      match s1 with
      | .tmo :: _ => CRes.ok []
      | .ioErr :: _ => CRes.errIo
      | .chunk lb :: s2 =>
        if lb.length ≠ 4 then CRes.errIo
        else
          match s2 with
          | .chunk pl :: s3 =>
            if pl.length ≠ beNat lb then CRes.errIo
            else
              match s3 with
              | .chunk sb :: _ =>
                if sb.length ≠ 2 then CRes.errIo
                else if leNat sb ≠ 0 then CRes.errConn
                else CRes.ok pl
              | _ => CRes.errIo
          | _ => CRes.errIo
      | [] => CRes.errIo
  | _ => CRes.errIo

/-- Rust `Connection::get_meid`, a byte-for-byte twin of `get_soc_id` in the
source. -/
def get_meid (cmd : Nat) : List PortEvt → CRes
  | .chunk [e] :: s1 =>
    if e ≠ cmd then CRes.errConn
    else
      match s1 with
      | .tmo :: _ => CRes.ok []
      | .ioErr :: _ => CRes.errIo
      | .chunk lb :: s2 =>
        if lb.length ≠ 4 then CRes.errIo
        else
          match s2 with
          | .chunk pl :: s3 =>
            if pl.length ≠ beNat lb then CRes.errIo
            else
              match s3 with
              | .chunk sb :: _ =>
                if sb.length ≠ 2 then CRes.errIo
                else if leNat sb ≠ 0 then CRes.errConn
                else CRes.ok pl
              | _ => CRes.errIo
          | _ => CRes.errIo
      | [] => CRes.errIo
  | _ => CRes.errIo

/-- C8: for both `get_soc_id` and `get_meid`, a timeout of the length read
yields an empty successful result, an I/O error on that read propagates as
an error, and a non-zero trailing status word yields an error even when the
whole payload arrived. -/
theorem get_id_timeout_spec (cmd : Nat) (r : List PortEvt) (lb pl sb : List Nat)
    (hlb : lb.length = 4) (hpl : pl.length = beNat lb) (hsb : sb.length = 2)
    (hnz : leNat sb ≠ 0) :
    get_soc_id cmd (.chunk [cmd] :: .tmo :: r) = CRes.ok [] ∧
      get_meid cmd (.chunk [cmd] :: .tmo :: r) = CRes.ok [] ∧
      get_soc_id cmd (.chunk [cmd] :: .ioErr :: r) = CRes.errIo ∧
      get_meid cmd (.chunk [cmd] :: .ioErr :: r) = CRes.errIo ∧
      get_soc_id cmd (.chunk [cmd] :: .chunk lb :: .chunk pl :: .chunk sb :: r) =
        CRes.errConn ∧
      get_meid cmd (.chunk [cmd] :: .chunk lb :: .chunk pl :: .chunk sb :: r) =
        CRes.errConn := by
  refine ⟨?_, ?_, ?_, ?_, ?_, ?_⟩
  · rw [get_soc_id, if_neg (by omega)]
  · rw [get_meid, if_neg (by omega)]
  · rw [get_soc_id, if_neg (by omega)]
  · rw [get_meid, if_neg (by omega)]
  · rw [get_soc_id, if_neg (by omega)]
    simp only [hlb]
    rw [if_neg (by omega), if_neg (by omega), if_neg (by omega), if_pos hnz]
  · rw [get_meid, if_neg (by omega)]
    simp only [hlb]
    rw [if_neg (by omega), if_neg (by omega), if_neg (by omega), if_pos hnz]

/-- C8 witness: a concrete opcode 0xE7 with a concrete failing status. -/
theorem get_id_timeout_spec_witness :
    get_soc_id 0xE7 [.chunk [0xE7], .tmo] = CRes.ok [] ∧
      get_meid 0xE7 [.chunk [0xE7], .tmo] = CRes.ok [] ∧
      get_soc_id 0xE7 [.chunk [0xE7], .ioErr] = CRes.errIo ∧
      get_meid 0xE7 [.chunk [0xE7], .ioErr] = CRes.errIo ∧
      get_soc_id 0xE7 [.chunk [0xE7], .chunk [0, 0, 0, 2], .chunk [1, 2],
        .chunk [1, 0]] = CRes.errConn ∧
      get_meid 0xE7 [.chunk [0xE7], .chunk [0, 0, 0, 2], .chunk [1, 2],
        .chunk [1, 0]] = CRes.errConn :=
  get_id_timeout_spec 0xE7 [] [0, 0, 0, 2] [1, 2] [1, 0]
    (by decide) (by decide) (by decide) (by decide)

/-! ## XML command layer (src/core/src/da/xml/xml_lib.rs)

The XML protocol functions are embedded at the granularity of `read_data`
results: each `RxEvt` is the payload of one received frame, `tmo` being the
expiry of the 700 ms timeout that wraps `read_data` inside `check_lifetime`
(where a timeout is assumed to be a valid lifetime).  Host transmissions are
accumulated in `tx` at the same granularity.  `XmlError::from_message`
(crate::error, not under src/) is modelled from the spec: a reply containing
`ERR!UNSUPPORTED` carries the `UnsupportedCmd` kind (§4.7, §7).  Byte-list
comparison agrees with the `from_utf8_lossy` string comparison used by the
source for
the pure-ASCII constants involved. -/

/-- ASCII bytes of the frame `"<command>CMD:START</command>"`
(`CMD_START` in src/core/src/da/xml/cmds.rs). -/
def cmdStartTag : List Nat :=
  [0x3C, 0x63, 0x6F, 0x6D, 0x6D, 0x61, 0x6E, 0x64, 0x3E, 0x43, 0x4D, 0x44,
   0x3A, 0x53, 0x54, 0x41, 0x52, 0x54, 0x3C, 0x2F, 0x63, 0x6F, 0x6D, 0x6D,
   0x61, 0x6E, 0x64, 0x3E]

/-- ASCII bytes of `"<command>CMD:END</command>"` (`CMD_END`). -/
def cmdEndTag : List Nat :=
  [0x3C, 0x63, 0x6F, 0x6D, 0x6D, 0x61, 0x6E, 0x64, 0x3E, 0x43, 0x4D, 0x44,
   0x3A, 0x45, 0x4E, 0x44, 0x3C, 0x2F, 0x63, 0x6F, 0x6D, 0x6D, 0x61, 0x6E,
   0x64, 0x3E]

/-- ASCII bytes of `"ERR!UNSUPPORTED"`. -/
def errUnsupportedTag : List Nat :=
  [0x45, 0x52, 0x52, 0x21, 0x55, 0x4E, 0x53, 0x55, 0x50, 0x50, 0x4F, 0x52,
   0x54, 0x45, 0x44]

/-- ASCII bytes of the host acknowledgment `"OK\0"`. -/
def okAck : List Nat := [0x4F, 0x4B, 0x00]

/-- ASCII bytes of `"OK@0x0\0"` (OK with status 0). -/
def okZeroAck : List Nat := [0x4F, 0x4B, 0x40, 0x30, 0x78, 0x30, 0x00]

inductive RxEvt where
  | msg (bs : List Nat)
  | tmo
  | ioErr
deriving DecidableEq

structure XmlSt where
  rx : List RxEvt
  tx : List (List Nat)
deriving DecidableEq

inductive XRes where
  | okTrue
  | okFalse
  | errXmlUnsupported
  | errProto
  | errIo
deriving DecidableEq

/-- Rust `Xml::read_ack` (xml_lib.rs lines 134-148): `OK\0` or `OK@0x0\0` is
success, a reply containing `ERR!UNSUPPORTED` is the unsupported-command XML
error, anything else a protocol error. -/
def xml_read_ack : XmlSt → XRes × XmlSt
  | ⟨RxEvt.msg bs :: rest, tx⟩ =>
    (if bs = okAck ∨ bs = okZeroAck then XRes.okTrue
     else if containsSub bs errUnsupportedTag then XRes.errXmlUnsupported
     else XRes.errProto, ⟨rest, tx⟩)
  | ⟨RxEvt.tmo :: rest, tx⟩ => (XRes.errIo, ⟨rest, tx⟩)
  | ⟨RxEvt.ioErr :: rest, tx⟩ => (XRes.errIo, ⟨rest, tx⟩)
  | ⟨[], tx⟩ => (XRes.errIo, ⟨[], tx⟩)

/-- Rust `Xml::check_lifetime` (lines 100-118): a 700 ms timeout is assumed
valid; otherwise the received frame must contain the lifetime pattern. -/
def xml_check_lifetime (pat : List Nat) : XmlSt → Option Bool × XmlSt
  | ⟨RxEvt.tmo :: rest, tx⟩ => (some true, ⟨rest, tx⟩)
  | ⟨RxEvt.msg bs :: rest, tx⟩ => (some (containsSub bs pat), ⟨rest, tx⟩)
  | ⟨RxEvt.ioErr :: rest, tx⟩ => (none, ⟨rest, tx⟩)
  | ⟨[], tx⟩ => (none, ⟨[], tx⟩)

/-- Rust `Xml::ack(None)`: transmit `OK\0`. -/
def xml_ack_ok (st : XmlSt) : XmlSt := ⟨st.rx, st.tx ++ [okAck]⟩

/-- Rust `Xml::lifetime_ack` (lines 151-157): check the lifetime, fail with an
I/O error when invalid, else acknowledge with `OK\0`. -/
def xml_lifetime_ack (pat : List Nat) (st : XmlSt) : XRes × XmlSt :=
  match xml_check_lifetime pat st with
  | (some true, st2) => (XRes.okTrue, xml_ack_ok st2)
  | (some false, st2) => (XRes.errIo, st2)
  | (none, st2) => (XRes.errIo, st2)

/-- Rust `Xml::send`: transmit one framed payload. -/
def xml_send (bs : List Nat) (st : XmlSt) : XmlSt := ⟨st.rx, st.tx ++ [bs]⟩

/-- Rust `Xml::send_cmd` (lines 160-180): consume/ack `CMD:START`, transmit the
serialized command, read the ack; on the unsupported-command XML error,
consume/ack the trailing `CMD:END` and return `Ok(false)` (the non-fatal
unsupported outcome); other errors propagate. -/
def xml_send_cmd (cmdBytes : List Nat) (st : XmlSt) : XRes × XmlSt :=
  match xml_lifetime_ack cmdStartTag st with
  | (XRes.okTrue, st1) =>
    match xml_read_ack (xml_send cmdBytes st1) with
    | (XRes.okTrue, st3) => (XRes.okTrue, st3)
    | (XRes.errXmlUnsupported, st3) =>
      (match xml_lifetime_ack cmdEndTag st3 with
       | (XRes.okTrue, st4) => (XRes.okFalse, st4)
       | (e, st4) => (e, st4))
    | (e, st3) => (e, st3)
  | (e, st1) => (e, st1)

/-- C7: when the device answers a command with a reply containing
`ERR!UNSUPPORTED`, the host still consumes the following `CMD:END` lifetime
frame, acknowledges it with `OK\0`, and returns the non-fatal `Ok(false)`
unsupported outcome — not a transport error.  The final transmit trace is
the `CMD:START` ack, the command itself, and the `CMD:END` ack. -/
theorem xml_send_cmd_unsupported (cmd sb ab eb : List Nat) (rest : List RxEvt)
    (tx0 : List (List Nat))
    (hs : containsSub sb cmdStartTag = true)
    (ha : containsSub ab errUnsupportedTag = true)
    (he : containsSub eb cmdEndTag = true) :
    xml_send_cmd cmd ⟨RxEvt.msg sb :: RxEvt.msg ab :: RxEvt.msg eb :: rest, tx0⟩ =
      (XRes.okFalse, ⟨rest, ((tx0 ++ [okAck]) ++ [cmd]) ++ [okAck]⟩) := by
  have hlen := length_le_of_containsSub ab errUnsupportedTag ha
  have hne1 : ¬ (ab = okAck ∨ ab = okZeroAck) := by
    rintro (h | h) <;> rw [h] at hlen <;> revert hlen <;> decide
  rw [xml_send_cmd]
  rw [show xml_lifetime_ack cmdStartTag
      ⟨RxEvt.msg sb :: RxEvt.msg ab :: RxEvt.msg eb :: rest, tx0⟩ =
      (XRes.okTrue, ⟨RxEvt.msg ab :: RxEvt.msg eb :: rest, tx0 ++ [okAck]⟩) by
    rw [xml_lifetime_ack, xml_check_lifetime, hs]
    rfl]
  dsimp only
  rw [show xml_read_ack (xml_send cmd
      ⟨RxEvt.msg ab :: RxEvt.msg eb :: rest, tx0 ++ [okAck]⟩) =
      (XRes.errXmlUnsupported, ⟨RxEvt.msg eb :: rest, (tx0 ++ [okAck]) ++ [cmd]⟩) by
    rw [xml_send, xml_read_ack, if_neg hne1, if_pos ha]]
  dsimp only
  rw [show xml_lifetime_ack cmdEndTag
      ⟨RxEvt.msg eb :: rest, (tx0 ++ [okAck]) ++ [cmd]⟩ =
      (XRes.okTrue, ⟨rest, ((tx0 ++ [okAck]) ++ [cmd]) ++ [okAck]⟩) by
    rw [xml_lifetime_ack, xml_check_lifetime, he]
    rfl]

/-- C7 witness: a concrete unsupported command exchange. -/
theorem xml_send_cmd_unsupported_witness :
    xml_send_cmd [0x3C, 0x64, 0x61, 0x3E]
      ⟨[RxEvt.msg cmdStartTag, RxEvt.msg errUnsupportedTag, RxEvt.msg cmdEndTag], []⟩ =
      (XRes.okFalse, ⟨[], (([] ++ [okAck]) ++ [[0x3C, 0x64, 0x61, 0x3E]]) ++ [okAck]⟩) :=
  xml_send_cmd_unsupported [0x3C, 0x64, 0x61, 0x3E] cmdStartTag errUnsupportedTag
    cmdEndTag [] [] (by decide) (by decide) (by decide)

/-! ## V5 DA patcher (src/core/src/da/xflash/patch.rs)

`patch_boot_to` skips when the hex pattern `636D645F626F6F745F746F00` —
the NUL-terminated ASCII string `cmd_boot_to\0` — is found in the DA2
bytes; otherwise it locates four signature patterns and splices in the
extension loader.  The byte-manipulation utilities it calls live in
`crate::utilities` (not under src/) and are modelled from the spec (§4.4);
patterns are given as byte lists with `none` for the hex wildcard `XX`. -/

deriving instance DecidableEq for Except

/-- Sentinel `HEX_NOT_FOUND`: the not-found sentinel of the pattern scanner
(modelled as `usize::MAX`). -/
def HEX_NOT_FOUND : Nat := 2 ^ 64 - 1

/-- Does a pattern (with wildcards) match at the head of `bs`? -/
def patMatch : List (Option Nat) → List Nat → Bool
  | [], _ => true
  | _ :: _, [] => false
  | some p :: ps, b :: bs => p == b && patMatch ps bs
  | none :: ps, _ :: bs => patMatch ps bs

/-- Modelled from the spec: `find_pattern` (crate::utilities::patching, not
under src/) scans the data for the first occurrence of a hex byte pattern at
or after `start`, returning its offset or `HEX_NOT_FOUND` (§4.4 step 2
"Locate four signature byte patterns in DA2"). -/
def find_pattern (data : List Nat) (pat : List (Option Nat)) (start : Nat) : Nat :=
  (((List.range (data.length + 1)).filter fun i =>
      decide (start ≤ i) && patMatch pat (data.drop i)).head?).getD HEX_NOT_FOUND

/-- Modelled from the spec: `patch` (crate::utilities::patching, not under
src/) overwrites the given bytes at `offset`; patching is pure in-place byte
manipulation (§4.4), so writing past the end of the buffer — in particular
at the `HEX_NOT_FOUND` sentinel — fails. -/
def patch (data : List Nat) (offset : Nat) (patchBytes : List Nat) :
    Except Unit (List Nat) :=
  if offset + patchBytes.length ≤ data.length then
    .ok (data.take offset ++ patchBytes ++ data.drop (offset + patchBytes.length))
  else .error ()

/-- Modelled from the spec: `to_thumb_addr` — §4.4 "All addresses are
computed as `load_addr + file_offset | 1` (Thumb bit)"; the result is a
`u32`. -/
def to_thumb_addr (offset addr : Nat) : Nat := ((addr + offset) ||| 1) % 2 ^ 32

/-- Modelled from the spec: `encode_ldr` (crate::utilities::arm, not under
src/) encodes the Thumb LDR-literal that loads the pointer-table entry
(§4.4 step 5): register, pc-relative word offset to the literal, fallible
when the literal is out of encoding range. -/
def encode_ldr (reg ldr_off dat_off _addr : Nat) : Except Unit (List Nat) :=
  let pc := (ldr_off + 4) / 4 * 4
  if dat_off < pc then .error ()
  else if (dat_off - pc) / 4 < 256 then .ok [(dat_off - pc) / 4, 0x48 + reg]
  else .error ()

/-- Modelled from the spec: `encode_bl` (crate::utilities::arm, not under
src/) — §4.4 step 5 "The BL instruction target is encoded per ARMv7-M
(half-word swap)": the Thumb-2 BL with S/J1/J2/imm10/imm11 fields, emitted
as two little-endian half-words. -/
def encode_bl (src dst : Nat) : List Nat :=
  let off := (((dst : Int) - (src : Int) - 4).emod (2 ^ 25)).toNat
  let s := off / 2 ^ 24
  let i1 := off / 2 ^ 23 % 2
  let i2 := off / 2 ^ 22 % 2
  let j1 := (1 - i1) ^^^ s
  let j2 := (1 - i2) ^^^ s
  let imm10 := off / 2 ^ 12 % 2 ^ 10
  let imm11 := off / 2 % 2 ^ 11
  let hw1 := 0xF000 ||| (s <<< 10) ||| imm10
  let hw2 := 0xD000 ||| (j1 <<< 13) ||| (j2 <<< 11) ||| imm11
  [hw1 % 256, hw1 / 256, hw2 % 256, hw2 / 256]

/-- Modelled from the spec: the embedded extension-loader payload
(`payloads/extloader_v5.bin`, not under src/); the theorems below never
reach a successful splice, so its bytes are immaterial and the counter-
example instantiates it with the empty blob. -/
def EXT_LOADER : List Nat := []

/-- The ASCII bytes of `cmd_boot_to` (no terminator). -/
def cmdBootToAscii : List Nat :=
  [0x63, 0x6D, 0x64, 0x5F, 0x62, 0x6F, 0x6F, 0x74, 0x5F, 0x74, 0x6F]

/-- The guard pattern of patch.rs line 39, hex `636D645F626F6F745F746F00`:
`cmd_boot_to` followed by a NUL byte. -/
def cmdBootToPat : List (Option Nat) := (cmdBootToAscii ++ [0x00]).map some

/-- Signature hex `08B54FF460200021XXF7` (`dagent_reg_cmds`). -/
def dagentRegCmdsPat : List (Option Nat) :=
  [some 0x08, some 0xB5, some 0x4F, some 0xF4, some 0x60, some 0x20,
   some 0x00, some 0x21, none, some 0xF7]

/-- Signature hex `30B5002385B004460193` (`devc_read_reg`). -/
def devcReadRegPat : List (Option Nat) :=
  [some 0x30, some 0xB5, some 0x00, some 0x23, some 0x85, some 0xB0,
   some 0x04, some 0x46, some 0x01, some 0x93]

/-- Signature hex `084B13B504460193` (`unsupported_cmd`). -/
def unsupportedCmdPat : List (Option Nat) :=
  [some 0x08, some 0x4B, some 0x13, some 0xB5, some 0x04, some 0x46,
   some 0x01, some 0x93]

/-- Signature hex `38B5054610200C46` (`register_maj_cmd`). -/
def registerMajCmdPat : List (Option Nat) :=
  [some 0x38, some 0xB5, some 0x05, some 0x46, some 0x10, some 0x20,
   some 0x0C, some 0x46]

/-- Rust `patch_boot_to` (patch.rs lines 37-85): the Bool reports whether a patch
was applied; the returned list is the resulting DA2 byte content.  The
extension-loader blob is passed in (`include_bytes!` data not under src/). -/
def patch_boot_to (extLoader data : List Nat) (addr : Nat) :
    Except Unit (Bool × List Nat) :=
  if find_pattern data cmdBootToPat 0 ≠ HEX_NOT_FOUND then .ok (false, data)
  else
    let dagent_reg_cmds := find_pattern data dagentRegCmdsPat 0
    let devc_read_reg := find_pattern data devcReadRegPat 0
    let unsupported_cmd := find_pattern data unsupportedCmdPat 0
    let register_maj_cmd := find_pattern data registerMajCmdPat 0
    match patch data devc_read_reg extLoader with
    | .error e => .error e
    | .ok d1 =>
      let unsupported_cmd_addr := u32le (to_thumb_addr unsupported_cmd addr)
      let devc_read_reg_addr := u32le (to_thumb_addr devc_read_reg addr)
      let unsupported_cmd_dat := find_pattern d1 (unsupported_cmd_addr.map some) 0
      match patch d1 unsupported_cmd_dat devc_read_reg_addr with
      | .error e => .error e
      | .ok d2 =>
        let reg_cmd_patch : List Nat := [0x4F, 0xF4, 0x80, 0x30, 0x08, 0x30]
        let ldr_off := dagent_reg_cmds + 0x2 + reg_cmd_patch.length
        match encode_ldr 1 ldr_off unsupported_cmd_dat addr with
        | .error e => .error e
        | .ok ldr =>
          let bl_addr := ldr_off + 0x2 + addr
          let reg_maj_cmd_addr := to_thumb_addr register_maj_cmd addr
          let shellcode := encode_bl bl_addr reg_maj_cmd_addr
          let full := reg_cmd_patch ++ ldr ++ shellcode ++
            [0xAF, 0xF3, 0x00, 0x80] ++ [0xAF, 0xF3, 0x00, 0x80]
          match patch d2 (dagent_reg_cmds + 0x2) full with
          | .error e => .error e
          | .ok d3 => .ok (true, d3)

/-- A DA2 fragment containing `cmd_boot_to` followed by `XY` — no NUL
terminator. -/
def c9data : List Nat := cmdBootToAscii ++ [0x58, 0x59]

/-- C9 counterexample: `c9data` contains the ASCII string `cmd_boot_to`,
yet `patch_boot_to` does not take the skip path and does not report a no-op
(the guard looks for the NUL-terminated pattern, which is absent, so the
patcher proceeds and fails on the missing signature patterns). -/
theorem patch_boot_to_counterexample :
    containsSub c9data cmdBootToAscii = true ∧
      patch_boot_to EXT_LOADER c9data 0x40000000 ≠ Except.ok (false, c9data) := by
  constructor
  · decide
  · decide

theorem patMatch_map_some (pat bs : List Nat) :
    patMatch (pat.map some) bs = pat.isPrefixOf bs := by
  induction pat generalizing bs with
  | nil => simp [patMatch, List.isPrefixOf]
  | cons p ps ih =>
    cases bs with
    | nil => simp [patMatch, List.isPrefixOf]
    | cons b bs => simp [patMatch, List.isPrefixOf, ih]

theorem find_pattern_le_of_containsSub (data pat : List Nat)
    (h : containsSub data pat = true) :
    find_pattern data (pat.map some) 0 ≤ data.length := by
  unfold find_pattern
  have hpred : ∀ i : Nat, (decide (0 ≤ i) && patMatch (pat.map some) (data.drop i)) =
      pat.isPrefixOf (data.drop i) := by
    intro i
    simp [patMatch_map_some]
  cases hf : (List.range (data.length + 1)).filter
      (fun i => decide (0 ≤ i) && patMatch (pat.map some) (data.drop i)) with
  | nil =>
    exfalso
    simp only [containsSub, List.any_eq_true, List.mem_range] at h
    obtain ⟨i, hi, hpre⟩ := h
    have : i ∈ (List.range (data.length + 1)).filter
        (fun i => decide (0 ≤ i) && patMatch (pat.map some) (data.drop i)) := by
      rw [List.mem_filter, hpred]
      exact ⟨List.mem_range.mpr hi, hpre⟩
    rw [hf] at this
    exact List.not_mem_nil _ this
  | cons a t =>
    have ha : a ∈ (List.range (data.length + 1)).filter
        (fun i => decide (0 ≤ i) && patMatch (pat.map some) (data.drop i)) := by
      rw [hf]
      exact List.mem_cons_self a t
    have := List.mem_range.mp (List.mem_of_mem_filter ha)
    simp only [hf, List.head?, Option.getD_some]
    omega

/-- C9 amended: the skip applies to the NUL-terminated pattern: whenever the
DA2 bytes contain `cmd_boot_to` followed by a 0x00 byte, `patch_boot_to` is
a no-op that reports no patch applied (bytes returned unchanged), for any
extension-loader blob; bytes containing `cmd_boot_to` without the
terminator do not trigger the skip. -/
theorem patch_boot_to_skip (extLoader data : List Nat) (addr : Nat)
    (hlen : data.length < HEX_NOT_FOUND)
    (hc : containsSub data (cmdBootToAscii ++ [0x00]) = true) :
    patch_boot_to extLoader data addr = Except.ok (false, data) := by
  rw [patch_boot_to, if_pos]
  have hle := find_pattern_le_of_containsSub data (cmdBootToAscii ++ [0x00]) hc
  rw [show cmdBootToPat = (cmdBootToAscii ++ [0x00]).map some from rfl]
  omega

/-- C9 amended-claim witness: a buffer that is exactly the NUL-terminated
string is left unchanged with no patch reported. -/
theorem patch_boot_to_skip_witness :
    patch_boot_to [] (cmdBootToAscii ++ [0x00]) 0x40000000 =
      Except.ok (false, cmdBootToAscii ++ [0x00]) :=
  patch_boot_to_skip [] (cmdBootToAscii ++ [0x00]) 0x40000000 (by decide) (by decide)

end Penumbra
